import Mathlib

/-!
Verification of the emailbackup ingestion pipeline.

Shallow embedding of `src/email_downloader.py` and `src/database.py`.
Python strings are modelled as `List Char` (one `Char` per code point;
byte strings are modelled as their characters, with UTF-8 decoding under
`errors=ignore` modelled as the identity, which is exact for the ASCII
inputs considered).  Machine integers are `Nat`; the float size limits
are carried as `Rat` where the code compares floats, and as `Nat` where
the code compares byte counts.
-/

set_option maxRecDepth 100000

namespace EmailBackup

/-- Python `str.lower()` for one character, restricted to ASCII
(the inputs exercised by the claims are ASCII). -/
def pyLowerChar (c : Char) : Char :=
  if 65 ≤ c.toNat ∧ c.toNat ≤ 90 then Char.ofNat (c.toNat + 32) else c

/-- Python `str.lower()` (ASCII restriction). -/
def pyLower (s : List Char) : List Char := s.map pyLowerChar

/-- Membership test used by Python's `str.strip(' .')`. -/
def stripSet (c : Char) : Bool := c = ' ' ∨ c = '.'

/-- Python `s.strip(chars)`: remove leading and trailing characters of the set. -/
def pyStrip (p : Char → Bool) (s : List Char) : List Char :=
  ((s.dropWhile p).reverse.dropWhile p).reverse

/-- Python slice `s[:j]` for a possibly negative bound `j`. -/
def pySliceTo (j : Int) (l : List Char) : List Char :=
  if 0 ≤ j then l.take j.toNat else l.take (l.length - (-j).toNat)

/-- Index of the last occurrence of `c` in `s` (Python `str.rfind`),
`none` when absent. -/
def pyRfindIdx (c : Char) (s : List Char) : Option Nat :=
  ((s.enum.filter (fun p => decide (p.2 = c))).map Prod.fst).getLast?

/-- The index at which `os.path.splitext` splits the string: the index of
the last dot when a dot lies right of the last path separator and some
non-dot character of the basename precedes it, else the string length
(no extension).  This mirrors CPython's `posixpath.splitext`. -/
def extSplitIdx (s : List Char) : Nat :=
  let sepIdx : Int := match pyRfindIdx '/' s with | some i => (i : Int) | none => -1
  let dotIdx : Int := match pyRfindIdx '.' s with | some i => (i : Int) | none => -1
  if sepIdx < dotIdx ∧
      ∃ j ∈ List.range s.length, sepIdx < (j : Int) ∧ (j : Int) < dotIdx ∧ s.get? j ≠ some '.'
  then dotIdx.toNat else s.length

/-- `os.path.splitext`: `(stem, extension)`. -/
def pySplitext (s : List Char) : List Char × List Char :=
  (s.take (extSplitIdx s), s.drop (extSplitIdx s))

/-- The nine characters `clean_filename` replaces with an underscore. -/
def invalidChars : List Char := ['<', '>', ':', '"', '/', '\\', '|', '?', '*']

/-- The replacement stage of `clean_filename`:
`replace('\r','')`, `replace('\n','')`, `replace('\t',' ')`, then each
invalid character replaced by an underscore, then `strip(' .')`. -/
def sanitizeCore (s : List Char) : List Char :=
  let s1 := s.filter (fun c => decide (c ≠ '\r'))
  let s2 := s1.filter (fun c => decide (c ≠ '\n'))
  let s3 := s2.map (fun c => if c = '\t' then ' ' else c)
  let s4 := s3.map (fun c => if c ∈ invalidChars then '_' else c)
  pyStrip stripSet s4

/-- The length-200 truncation stage of `clean_filename`:
`name, ext = os.path.splitext(filename); filename = name[:200-len(ext)] + ext`
when the name is longer than 200 characters. -/
def truncate200 (s : List Char) : List Char :=
  if 200 < s.length then
    let pr := pySplitext s
    pySliceTo (200 - (pr.2.length : Int)) pr.1 ++ pr.2
  else s

/-- `clean_filename` from `email_downloader.py`. -/
def clean_filename (s : List Char) : List Char :=
  let t := truncate200 (sanitizeCore s)
  if t = [] then "unnamed_file".data else t

example : clean_filename "a<b>.txt".data = "a_b_.txt".data := by decide
example : clean_filename "".data = "unnamed_file".data := by decide
example : clean_filename "  ..name.. ".data = "name".data := by decide
example : pySplitext "name.ext".data = ("name".data, ".ext".data) := by decide

/-- Python's substring test `needle in hay`. -/
def containsSub (hay needle : List Char) : Bool :=
  (List.range (hay.length + 1)).any (fun i => needle.isPrefixOf (hay.drop i))

example : containsSub "hello world".data "lo w".data = true := by decide
example : containsSub "hello".data "".data = true := by decide
example : containsSub "hello".data "hellx".data = false := by decide

/-- The character of a decimal digit. -/
def digitChar (d : Nat) : Char :=
  match d with
  | 0 => '0' | 1 => '1' | 2 => '2' | 3 => '3' | 4 => '4'
  | 5 => '5' | 6 => '6' | 7 => '7' | 8 => '8' | _ => '9'

/-- The numeric value of a decimal digit character. -/
def digitVal (c : Char) : Nat :=
  match c with
  | '0' => 0 | '1' => 1 | '2' => 2 | '3' => 3 | '4' => 4
  | '5' => 5 | '6' => 6 | '7' => 7 | '8' => 8 | '9' => 9 | _ => 0

/-- Decimal digits of a natural number, most significant first, computed
with explicit fuel so the definition reduces in the kernel; the fuel is
always sufficient when it is at least the number of digits. -/
def natDigitsAux : Nat → Nat → List Char
  | 0, n => [digitChar n]
  | fuel + 1, n =>
    if n < 10 then [digitChar n]
    else natDigitsAux fuel (n / 10) ++ [digitChar (n % 10)]

/-- Python `str(n)` for a natural number. -/
def natStr (n : Nat) : List Char := natDigitsAux n n

example : natStr 0 = "0".data := by decide
example : natStr 251 = "251".data := by decide

/-! ### Module constants of `email_downloader.py` -/

/-- `EXECUTABLE_EXTENSIONS`. -/
def EXECUTABLE_EXTENSIONS : List (List Char) :=
  [".exe".data, ".bat".data, ".cmd".data, ".com".data, ".scr".data, ".pif".data,
   ".msi".data, ".vbs".data, ".js".data, ".jse".data, ".wsf".data, ".wsh".data,
   ".ps1".data, ".app".data, ".deb".data, ".rpm".data, ".jar".data, ".apk".data,
   ".dmg".data, ".pkg".data, ".run".data, ".bin".data, ".tbz".data]

/-- `SUSPICIOUS_PATTERNS`. -/
def SUSPICIOUS_PATTERNS : List (List Char) :=
  ["urgent".data, "verify account".data, "suspended".data,
   "click here immediately".data, "congratulations".data, "you won".data,
   "claim your prize".data, "act now".data]

/-! ### Safety screener -/

/-- `is_sender_blacklisted`: the lowered address contains some lowered
blacklist entry; an empty address is never blacklisted. -/
def is_sender_blacklisted (blacklist : List (List Char)) (fromAddr : List Char) : Bool :=
  if fromAddr = [] then false
  else blacklist.any (fun b => containsSub (pyLower fromAddr) (pyLower b))

/-- `is_executable_file`: the lowered filename ends with a blocked
executable extension; an empty filename is never executable. -/
def is_executable_file (filename : List Char) : Bool :=
  if filename = [] then false
  else EXECUTABLE_EXTENSIONS.any (fun e => e.isSuffixOf (pyLower filename))

/-- `check_suspicious_content`: the patterns contained in the lowered
`subject + " " + body`, in pattern-list order. -/
def check_suspicious_content (subject body : List Char) : List (List Char) :=
  let content := pyLower (subject ++ ' ' :: body)
  SUSPICIOUS_PATTERNS.filter (fun p => containsSub content p)

/-- Screener configuration: the `[SECURITY]` settings read at module load. -/
structure ScreenCfg where
  maxEmailSizeKb : Rat
  blacklist : List (List Char)
  skipSuspicious : Bool
deriving DecidableEq

/-- One entry of the `reasons` list built by `is_email_safe`.  Each
constructor stands for one of the f-strings the code appends, carrying
the data interpolated into it (the rendering itself is injective). -/
inductive Reason
  | sizeTooLarge (sizeKb maxKb : Rat)
  | senderBlacklisted (fromAddr : List Char)
  | suspiciousPatterns (found : List (List Char))
  | headerReadError
deriving DecidableEq

/-- Whether a reason is the suspicious-patterns reason. -/
def Reason.isSuspicious : Reason → Bool
  | .suspiciousPatterns _ => true
  | _ => false

/-- The pure core of `is_email_safe` (the header fetch succeeded and
yielded `fromAddr`/`subject`; `sizeKb` comes from `get_email_size_kb`):
returns `(allowed, reasons, size_kb)`. -/
def is_email_safe (cfg : ScreenCfg) (sizeKb : Rat) (fromAddr subject : List Char) :
    Bool × List Reason × Rat :=
  let r1 := if cfg.maxEmailSizeKb < sizeKb then
    [Reason.sizeTooLarge sizeKb cfg.maxEmailSizeKb] else []
  let r2 := if is_sender_blacklisted cfg.blacklist fromAddr then
    [Reason.senderBlacklisted fromAddr] else []
  let r3 := if cfg.skipSuspicious then
    (let s := check_suspicious_content subject []
     if s ≠ [] then [Reason.suspiciousPatterns s] else [])
    else []
  let reasons := r1 ++ r2 ++ r3
  (decide (reasons.length = 0), reasons, sizeKb)

/-! ### Link extraction and classification -/

/-- Python regex `\s` (ASCII whitespace; the Unicode space characters are
outside the inputs considered). -/
def pyIsSpace (c : Char) : Bool :=
  c = ' ' ∨ c = '\t' ∨ c = '\n' ∨ c = '\r' ∨ c.toNat = 11 ∨ c.toNat = 12

/-- The character class of the URL regex in `extract_links`:
`[a-zA-Z]|[0-9]|[$-_@.&+]|[!*\(\),]|%[0-9a-fA-F]{2}` — its union is
`!`, the range `$`..`_` (0x24–0x5F) and the range `a`..`z`. -/
def urlChar (c : Char) : Bool :=
  c = '!' ∨ (36 ≤ c.toNat ∧ c.toNat ≤ 95) ∨ (97 ≤ c.toNat ∧ c.toNat ≤ 122)

/-- Try to match `http[s]?://<body>+` at the head of `s`, where `keep`
is the character class of the body (which must be non-empty).  Returns
the match and the remaining input.  The greedy `[s]?` can only succeed
one way because `s ≠ ':'`. -/
def grabHttpMatch (keep : Char → Bool) (s : List Char) : Option (List Char × List Char) :=
  if "https://".data.isPrefixOf s then
    let rest := s.drop 8
    let body := rest.takeWhile keep
    if body = [] then none else some ("https://".data ++ body, rest.drop body.length)
  else if "http://".data.isPrefixOf s then
    let rest := s.drop 7
    let body := rest.takeWhile keep
    if body = [] then none else some ("http://".data ++ body, rest.drop body.length)
  else none

/-- `re.findall` for the pattern `http[s]?://<keep>+`: scan left to
right, take the leftmost match, continue after its end (non-overlapping
matches).  Fuel (initially the input length) bounds the scan; each step
consumes at least one character. -/
def scanMatches (keep : Char → Bool) : Nat → List Char → List (List Char)
  | 0, _ => []
  | _, [] => []
  | fuel + 1, c :: tl =>
    match grabHttpMatch keep (c :: tl) with
    | some (m, rest) => m :: scanMatches keep fuel rest
    | none => scanMatches keep fuel tl

/-- Deduplication keeping first occurrences.  The source computes
`list(set(urls))`, whose order is unspecified; this model fixes the
first-occurrence order. -/
def dedupKeepFirst (l : List (List Char)) : List (List Char) :=
  l.foldl (fun acc x => if x ∈ acc then acc else acc ++ [x]) []

/-- `extract_links`: all matches of the permissive URL regex,
deduplicated; empty input yields the empty list. -/
def extract_links (s : List Char) : List (List Char) :=
  dedupKeepFirst (scanMatches urlChar s.length s)

/-- `re.findall(r'https?://[^\s]+', s)` as used by `is_attachment_link`. -/
def findUrls (s : List Char) : List (List Char) :=
  scanMatches (fun c => ¬ pyIsSpace c) s.length s

/-- Combined character length of a list of URLs. -/
def urlsTotalLen (us : List (List Char)) : Nat := (us.map List.length).sum

example : extract_links "see https://a.b/c and http://d.e".data =
    ["https://a.b/c".data, "http://d.e".data] := by decide
example : extract_links "".data = [] := by decide
example : findUrls "x https://a.b/c?q=1 y".data = ["https://a.b/c?q=1".data] := by decide

/-- `identify_link_type`: ordered case-insensitive substring table. -/
def identify_link_type (url : List Char) : List Char :=
  let u := pyLower url
  if containsSub u "drive.google.com".data ∨ containsSub u "docs.google.com".data then
    "google_drive".data
  else if containsSub u "dropbox.com".data then "dropbox".data
  else if containsSub u "onedrive".data ∨ containsSub u "sharepoint".data then "onedrive".data
  else if containsSub u "box.com".data then "box".data
  else "other".data

example : identify_link_type "https://drive.google.com/x".data = "google_drive".data := by decide
example : identify_link_type "https://dropbox.com/x".data = "dropbox".data := by decide
example : identify_link_type "https://example.com/x".data = "other".data := by decide

/-! ### Attachment classifier (`is_attachment_link`, `process_attachments`) -/

/-- One decoded MIME part as exposed by the mail library's walk:
`get_content_maintype()`, `get_content_type()` (lowercased by the
library), the `Content-Disposition` header, `get_filename()` (already
header-decoded; `decode_str` is modelled as the identity on it), the
length of `get_payload(decode=False)` and `get_payload(decode=True)`
(`none` when the library returns `None`; bytes modelled as characters). -/
structure Part where
  maintype : List Char
  contentType : List Char
  disposition : Option (List Char)
  filename : Option (List Char)
  rawLen : Nat
  payload : Option (List Char)
deriving DecidableEq

/-- `file_extensions` local to `is_attachment_link`. -/
def file_extensions : List (List Char) :=
  [".doc".data, ".docx".data, ".xls".data, ".xlsx".data, ".ppt".data, ".pptx".data,
   ".pdf".data, ".txt".data, ".zip".data, ".rar".data, ".7z".data,
   ".jpg".data, ".jpeg".data, ".png".data, ".gif".data, ".bmp".data,
   ".mp3".data, ".mp4".data, ".avi".data, ".mov".data,
   ".exe".data, ".msi".data, ".apk".data]

/-- `known_file_types` local to `is_attachment_link`. -/
def known_file_types : List (List Char) :=
  ["application/msword".data, "application/vnd.openxmlformats".data,
   "application/pdf".data, "application/zip".data,
   "image/".data, "video/".data, "audio/".data]

/-- The lowered filename ends with a known real-file extension. -/
def has_file_extension (fn : List Char) : Bool :=
  file_extensions.any (fun e => e.isSuffixOf (pyLower fn))

/-- `re.search(r'https?://', filename)`: the filename contains the HTTP
or HTTPS scheme marker. -/
def filename_has_url (fn : List Char) : Bool :=
  containsSub fn "https://".data ∨ containsSub fn "http://".data

/-- The content type starts with a known file-type prefix. -/
def has_known_file_type (ct : List Char) : Bool :=
  known_file_types.any (fun t => t.isPrefixOf ct)

/-- `is_attachment_link` from `email_downloader.py`. -/
def is_attachment_link (p : Part) : Bool :=
  match p.filename with
  | none => false
  | some fn =>
    if has_file_extension fn then false
    else if filename_has_url fn then true
    else if has_known_file_type p.contentType then false
    else
      match p.payload with
      | none => false
      | some content =>
        if content = [] then false
        else if 10240 < content.length then false
        else
          let urls := findUrls content
          if urls ≠ [] ∧ content.length < 2 * urlsTotalLen urls then true else false

/-- Security / size configuration used by `process_attachments`
(`MAX_ATTACHMENT_SIZE_MB * 1024 * 1024` carried as a byte count, and
`BLOCK_EXECUTABLE_FILES`). -/
structure Config where
  maxAttachmentBytes : Nat
  blockExecutableFiles : Bool
deriving DecidableEq

/-- One entry of `blocked_files`.  Each constructor stands for one of
the two f-strings the code appends: the bare filename for a blocked
executable, and `"{filename} (size: {mb:.2f} MB)"` for an oversize file
(whose interpolated size is carried here as the exact byte count). -/
inductive BlockedEntry
  | executable (filename : List Char)
  | oversize (filename : List Char) (sizeBytes : Nat)
deriving DecidableEq

/-- One entry of `attachment_links`: the dict
`{url, filename: clean_filename(filename), type: identify_link_type(url)}`. -/
structure AttachLink where
  url : List Char
  filename : List Char
  linkType : List Char
deriving DecidableEq

/-- The mutable state threaded through the `process_attachments` loop:
the three result lists, the `processed_parts` key set, and the set of
names existing in the (freshly created, initially empty) message
folder. -/
structure AttachState where
  files : List (List Char)
  links : List AttachLink
  blocked : List BlockedEntry
  processed : List (List Char)
  fsys : List (List Char)
deriving DecidableEq

/-- The synthetic duplicate key
`f"{filename}_{part.get_content_type()}_{len(part.get_payload(decode=False))}"`. -/
def partKey (p : Part) (fn : List Char) : List Char :=
  fn ++ '_' :: p.contentType ++ '_' :: natStr p.rawLen

/-- The collision suffix candidate `f"{base_name}_{counter}{ext}"`. -/
def suffixName (base ext : List Char) (counter : Nat) : List Char :=
  base ++ '_' :: (natStr counter ++ ext)

/-- The `while os.path.exists(filepath)` loop of `process_attachments`,
with fuel (one more than the number of existing names suffices, since
the candidates are pairwise distinct). -/
def resolveFrom (fsys : List (List Char)) (base ext : List Char) :
    Nat → Nat → List Char
  | counter, 0 => suffixName base ext counter
  | counter, fuel + 1 =>
    if suffixName base ext counter ∈ fsys then resolveFrom fsys base ext (counter + 1) fuel
    else suffixName base ext counter

/-- Collision resolution for one cleaned name against the existing
folder contents: the cleaned name itself if free, else the first free
`base_counter ++ ext` with `counter` counting up from 1. -/
def resolveName (fsys : List (List Char)) (clean : List Char) : List Char :=
  if clean ∈ fsys then
    let pr := pySplitext clean
    resolveFrom fsys pr.1 pr.2 1 (fsys.length + 1)
  else clean

/-- Resolve a collision-free name and record the written file in the
folder contents. -/
def saveFileName (fsys : List (List Char)) (clean : List Char) :
    List Char × List (List Char) :=
  let resolved := resolveName fsys clean
  (resolved, resolved :: fsys)

/-- One iteration of the `for part in msg.walk()` loop of
`process_attachments`. -/
def stepPart (cfg : Config) (st : AttachState) (p : Part) : AttachState :=
  if p.maintype = "multipart".data then st
  else if p.disposition = none then st
  else
    match p.filename with
    | none => st
    | some fn =>
      if fn = [] then st
      else
        let key := partKey p fn
        if key ∈ st.processed then st
        else
          let st1 := { st with processed := key :: st.processed }
          if cfg.blockExecutableFiles && is_executable_file fn then
            { st1 with blocked := st1.blocked ++ [BlockedEntry.executable fn] }
          else if is_attachment_link p then
            match p.payload with
            | none => st1
            | some content =>
              if content = [] then st1
              else
                let urls := extract_links content
                { st1 with links := st1.links ++
                    urls.map (fun u => ⟨u, clean_filename fn, identify_link_type u⟩) }
          else
            match p.payload with
            | none => st1
            | some content =>
              if content = [] then st1
              else if cfg.maxAttachmentBytes < content.length then
                { st1 with blocked := st1.blocked ++
                    [BlockedEntry.oversize fn content.length] }
              else
                let pr := saveFileName st1.fsys (clean_filename fn)
                { st1 with files := st1.files ++ [pr.1], fsys := pr.2 }

/-- `process_attachments`: fold the per-part step over the walked parts,
starting from empty lists and a fresh (empty) message folder. -/
def process_attachments (cfg : Config) (parts : List Part) : AttachState :=
  parts.foldl (stepPart cfg) ⟨[], [], [], [], []⟩

/-! ### Record store (`database.py`) -/

/-- The `links` column payload: the dict
`{attachment_links, body_links, blocked_files}` serialized to JSON. -/
structure LinksData where
  attachmentLinks : List AttachLink
  bodyLinks : List (List Char)
  blockedFiles : List BlockedEntry
deriving DecidableEq

/-- One row of the `emails` table (the fields `insert_email` writes;
`download_date` is the insertion timestamp and carries no claim, so it
is omitted).  `hasAttachments` is the stored `0/1` integer. -/
structure EmailRec where
  emailId : List Char
  subject : List Char
  fromAddr : List Char
  toAddr : List Char
  ccAddr : List Char
  date : List Char
  bodyText : List Char
  bodyHtml : List Char
  hasAttachments : Nat
  attachmentType : List Char
  attachmentCount : Nat
  links : LinksData
  folderPath : List Char
  sizeKb : Rat
deriving DecidableEq

/-- The stored record set, in insertion order; SQLite row ids are the
positions counted from 1. -/
abbrev Db : Type := List EmailRec

/-- `email_exists`: `SELECT id FROM emails WHERE email_id = ?` is
non-empty. -/
def email_exists (db : Db) (emailId : List Char) : Bool :=
  db.any (fun r => decide (r.emailId = emailId))

/-- Number of stored records with the given external id. -/
def countRecords (db : Db) (emailId : List Char) : Nat :=
  (db.filter (fun r => decide (r.emailId = emailId))).length

/-- SQLite errors surfaced to `insert_email`'s handlers: the
`sqlite3.IntegrityError` of the `email_id` UNIQUE constraint, and any
other database failure. -/
inductive SqlErr
  | integrityError
  | other
deriving DecidableEq

/-- The `INSERT INTO emails ...; commit` statement: raises the
integrity error if the unique `email_id` already exists, else appends
the row and returns `lastrowid`. -/
def insert_email_core (db : Db) (r : EmailRec) : Except SqlErr (Nat × Db) :=
  if email_exists db r.emailId then Except.error SqlErr.integrityError
  else Except.ok (db.length + 1, db ++ [r])

/-- The two `except` handlers of `insert_email`: every database error —
the integrity error as well as any other failure — is swallowed and
reported as `None`, leaving the stored records unchanged. -/
def catchInsert (db : Db) : Except SqlErr (Nat × Db) → Option Nat × Db
  | Except.error _ => (none, db)
  | Except.ok (i, db') => (some i, db')

/-- `insert_email` from `database.py`: total at its interface — it
returns the new row id, or `None` on a duplicate `email_id` or any
other database failure, and never raises. -/
def insert_email (db : Db) (r : EmailRec) : Option Nat × Db :=
  catchInsert db (insert_email_core db r)

/-! ### Ingestion orchestrator (`download_email`) -/

/-- The terminal outcome of `download_email` (its second return
component). -/
inductive Outcome
  | success
  | exists_
  | skipped
  | error
deriving DecidableEq

/-- One fetched and parsed message: the decoded headers and the ordered
walk of its MIME parts.  For a non-multipart message the walk consists
of the message itself as its only part. -/
structure MsgData where
  subject : List Char
  fromAddr : List Char
  toAddr : List Char
  ccAddr : List Char
  date : List Char
  isMultipart : Bool
  parts : List Part
deriving DecidableEq

/-- The body of the first part of the given content type whose decoded
payload is non-empty (`body_text`/`body_html` stay falsy-empty across
parts with `None` or empty payloads, so later parts may still set
them). -/
def firstBody (parts : List Part) (ct : List Char) : List Char :=
  (parts.filterMap (fun p =>
    match p.payload with
    | some s => if p.contentType = ct ∧ s ≠ [] then some s else none
    | none => none)).headD []

/-- The body-extraction block of `download_email`: the multipart branch
walks the parts; the non-multipart branch reads the message's own
content type and payload. -/
def extractBodies (m : MsgData) : List Char × List Char :=
  if m.isMultipart then
    (firstBody m.parts "text/plain".data, firstBody m.parts "text/html".data)
  else
    match m.parts with
    | p :: _ =>
      (match p.payload with
       | some s =>
         if s = [] then ([], [])
         else if p.contentType = "text/plain".data then (s, [])
         else if p.contentType = "text/html".data then ([], s)
         else ([], [])
       | none => ([], []))
    | [] => ([], [])

/-- `attachment_type` derivation from the two emptiness bits. -/
def attachmentTypeOf (hasFiles hasLinks : Bool) : List Char :=
  if hasFiles && hasLinks then "both".data
  else if hasFiles then "file".data
  else if hasLinks then "link".data
  else "none".data

/-- The record-assembly tail of `download_email` (lines 441–557): body
extraction and truncation, body links, lazy folder creation, attachment
processing, removal of the folder when it gained no files and no links
(the fresh folder is empty then, so `os.rmdir` succeeds), attachment
type derivation and the `email_data` dict.  `os.path.relpath` is
modelled as the identity on the non-empty folder path. -/
def buildRecord (cfg : Config) (downloadFolder : List Char) (emailId : List Char)
    (index : Nat) (m : MsgData) (sizeKb : Rat) : EmailRec :=
  let bodies := extractBodies m
  let bodyLinks := extract_links bodies.1 ++ extract_links bodies.2
  let folderName := "email_".data ++ natStr index ++ '_' :: clean_filename (m.subject.take 50)
  let emailFolder0 := downloadFolder ++ '/' :: folderName
  let st := process_attachments cfg m.parts
  let emailFolder := if st.files = [] ∧ st.links = [] then [] else emailFolder0
  let hasFiles := decide (st.files ≠ [])
  let hasLinks := decide (st.links ≠ [])
  { emailId := emailId
    subject := m.subject
    fromAddr := m.fromAddr
    toAddr := m.toAddr
    ccAddr := m.ccAddr
    date := m.date
    bodyText := bodies.1.take 5000
    bodyHtml := if bodies.2 = [] then [] else bodies.2.take 10000
    hasAttachments := if hasFiles || hasLinks then 1 else 0
    attachmentType := attachmentTypeOf hasFiles hasLinks
    attachmentCount := st.files.length + st.links.length
    links := ⟨st.links, bodyLinks, st.blocked⟩
    folderPath := if emailFolder = [] then [] else emailFolder
    sizeKb := sizeKb }

/-- The commit step of `download_email` (lines 559–574): insert the
record — `insert_email` reports a duplicate id as `None` — and return
`(True, 'success')` regardless of the insert result. -/
def commitRecord (db : Db) (rec : EmailRec) : Outcome × Db :=
  let r := insert_email db rec
  (Outcome.success, r.2)

/-- `download_email`: exists gate, safety screen, fetch and parse (both
failure kinds collapse to the `error` outcome, modelled by `fetched =
none`), then record assembly and commit.  `hdrFrom`/`hdrSubject` are
the header fields read by the screening fetch, and `sizeKb` comes from
`get_email_size_kb`. -/
def download_email (cfg : Config) (scfg : ScreenCfg) (downloadFolder : List Char)
    (db : Db) (emailId : List Char) (index : Nat) (sizeKb : Rat)
    (hdrFrom hdrSubject : List Char) (fetched : Option MsgData) : Outcome × Db :=
  if email_exists db emailId then (Outcome.exists_, db)
  else if (is_email_safe scfg sizeKb hdrFrom hdrSubject).1 = false then (Outcome.skipped, db)
  else
    match fetched with
    | none => (Outcome.error, db)
    | some m => commitRecord db (buildRecord cfg downloadFolder emailId index m sizeKb)

/-! ### Search (`search_emails`) -/

/-- Byte-wise (BINARY collation) `≤` on text, used by `ORDER BY date`. -/
def lexLe : List Char → List Char → Bool
  | [], _ => true
  | _ :: _, [] => false
  | a :: as, b :: bs => if a = b then lexLe as bs else decide (a.toNat < b.toNat)

/-- Insert into a date-descending list (stable insertion sort). -/
def insertDateDesc (r : EmailRec) : List EmailRec → List EmailRec
  | [] => [r]
  | x :: xs =>
    if lexLe x.date r.date then r :: x :: xs else x :: insertDateDesc r xs

/-- `ORDER BY date DESC`. -/
def sortByDateDesc (l : List EmailRec) : List EmailRec :=
  l.foldr insertDateDesc []

/-- ASCII alphanumeric, the FTS5 default-tokenizer token characters
(Unicode categories beyond ASCII are outside the inputs considered). -/
def isAlnumChar (c : Char) : Bool :=
  (48 ≤ c.toNat ∧ c.toNat ≤ 57) ∨ (65 ≤ c.toNat ∧ c.toNat ≤ 90) ∨
  (97 ≤ c.toNat ∧ c.toNat ≤ 122)

/-- Split into maximal alphanumeric runs (the FTS5 tokenizer, ASCII
restriction), accumulating the current run reversed. -/
def tokensAux : List Char → List Char → List (List Char)
  | [], acc => if acc = [] then [] else [acc.reverse]
  | c :: cs, acc =>
    if isAlnumChar c then tokensAux cs (c :: acc)
    else if acc = [] then tokensAux cs [] else acc.reverse :: tokensAux cs []

/-- Tokenize lowered text. -/
def ftsTokens (s : List Char) : List (List Char) := tokensAux (pyLower s) []

/-- Modelled from the FTS5 `MATCH` operator, simplified to conjunctive
whole-token matching over the four indexed columns (the claims never
exercise this branch's semantics). -/
def ftsRowMatch (q : List Char) (r : EmailRec) : Bool :=
  (ftsTokens q).all (fun t =>
    t ∈ ftsTokens (r.subject ++ ' ' :: r.bodyText ++ ' ' :: r.fromAddr ++ ' ' :: r.toAddr))

/-- SQLite `col LIKE '%q%'` (ASCII case-insensitive). -/
def likeContains (q col : List Char) : Bool :=
  containsSub (pyLower col) (pyLower q)

/-- The five SQL statements `search_emails` can execute. -/
inductive Stmt
  | selectAll (limit : Nat)
  | ftsMatch (q : List Char) (limit : Nat)
  | likeSubject (q : List Char) (limit : Nat)
  | likeFrom (q : List Char) (limit : Nat)
  | likeDate (q : List Char) (limit : Nat)
deriving DecidableEq

/-- Result rows of one statement against the record set. -/
def evalStmt (db : Db) : Stmt → List EmailRec
  | Stmt.selectAll n => (sortByDateDesc db).take n
  | Stmt.ftsMatch q n => (sortByDateDesc (db.filter (ftsRowMatch q))).take n
  | Stmt.likeSubject q n => (sortByDateDesc (db.filter (fun r => likeContains q r.subject))).take n
  | Stmt.likeFrom q n => (sortByDateDesc (db.filter (fun r => likeContains q r.fromAddr))).take n
  | Stmt.likeDate q n => (sortByDateDesc (db.filter (fun r => likeContains q r.date))).take n

/-- The shared `sqlite3` cursor: the rows of the last executed
statement that have not been fetched yet. -/
structure Cursor where
  pending : List EmailRec
deriving DecidableEq

/-- `cursor.execute(stmt)`: replace the pending rows. -/
def execSql (db : Db) (s : Stmt) (_cur : Cursor) : Cursor :=
  ⟨evalStmt db s⟩

/-- `cursor.fetchall()`: return and consume the pending rows. -/
def fetchall (cur : Cursor) : List EmailRec × Cursor :=
  (cur.pending, ⟨[]⟩)

/-- `search_emails` from `database.py`: dispatch on `query`/`field`; a
`field` outside the four handled values executes nothing, so the final
`fetchall` drains whatever the shared cursor still holds. -/
def search_emails (db : Db) (cur : Cursor) (query : Option (List Char))
    (field : List Char) (limit : Nat) : List EmailRec × Cursor :=
  let cur' :=
    match query with
    | none => execSql db (Stmt.selectAll limit) cur
    | some q =>
      if field = "all".data then execSql db (Stmt.ftsMatch q limit) cur
      else if field = "subject".data then execSql db (Stmt.likeSubject q limit) cur
      else if field = "from".data then execSql db (Stmt.likeFrom q limit) cur
      else if field = "date".data then execSql db (Stmt.likeDate q limit) cur
      else cur
  fetchall cur'

/-! ### Auxiliary definitions for the collision-resolution claims -/

/-- Value of a digit string (left inverse of `natStr`). -/
def digitsVal (l : List Char) : Nat :=
  l.foldl (fun a c => 10 * a + digitVal c) 0

/-- Iterate the save-one-file naming step `k` times with the same
cleaned name, returning the stored names in write order. -/
def saveNames (fsys : List (List Char)) (clean : List Char) : Nat → List (List Char)
  | 0 => []
  | k + 1 =>
    (saveFileName fsys clean).1 :: saveNames (saveFileName fsys clean).2 clean k

/-- The expected `i`-th name in a collision run: the cleaned name
itself first, then `base_i ++ ext`. -/
def collName (clean base ext : List Char) (i : Nat) : List Char :=
  if i = 0 then clean else suffixName base ext i

/-! ### Concrete inputs used by witnesses and counterexamples -/

/-- A small attachment configuration: 1000-byte limit, executables blocked. -/
def cfg0 : Config := ⟨1000, true⟩

/-- The empty per-message processing state. -/
def st0 : AttachState := ⟨[], [], [], [], []⟩

/-- A screener configuration: 102400 KB limit, empty blacklist,
suspicious-skip enabled. -/
def scfg0 : ScreenCfg := ⟨102400, [], true⟩

/-- A part with a disposition and a non-multipart type but no filename. -/
def pNoName : Part :=
  ⟨"text".data, "text/plain".data, some "attachment".data, none, 5, some "hi".data⟩

/-- A plain PDF file part. -/
def pFile0 : Part :=
  ⟨"application".data, "application/pdf".data, some "attachment".data,
   some "a.pdf".data, 4, some "%PDF".data⟩

/-- A stub text part whose content is one cloud link. -/
def pLink0 : Part :=
  ⟨"text".data, "text/x-url".data, some "attachment".data,
   some "shared doc".data, 21, some "https://dropbox.com/f".data⟩

/-- A minimal stored record. -/
def rec0 : EmailRec :=
  ⟨"1".data, [], [], [], [], "2024-01-01".data, [], [], 0, "none".data, 0,
   ⟨[], [], []⟩, [], 0⟩

/-- A message with no parts. -/
def msgNone0 : MsgData := ⟨"hello".data, [], [], [], [], true, []⟩

/-- A message with one file part. -/
def msgFile0 : MsgData := ⟨"hello".data, [], [], [], [], true, [pFile0]⟩

/-- A message with one link part. -/
def msgLink0 : MsgData := ⟨"hello".data, [], [], [], [], true, [pLink0]⟩

/-- A message with one file part and one link part. -/
def msgBoth0 : MsgData := ⟨"hello".data, [], [], [], [], true, [pFile0, pLink0]⟩

/-- The over-long input refuting the 200-character bound: a one-letter
stem with a 251-character extension. -/
def longName : List Char := 'a' :: '.' :: List.replicate 250 'b'

/-- The subject matching two suspicious patterns. -/
def subjCex : List Char := "URGENT: verify account now".data

/-- A multipart container part. -/
def pMulti0 : Part := ⟨"multipart".data, "multipart/mixed".data, none, none, 0, none⟩

/-- A state that has already seen `pFile0`'s duplicate key. -/
def stDup0 : AttachState := ⟨[], [], [], [partKey pFile0 "a.pdf".data], []⟩

/-- A file part whose payload is exactly the 1000-byte limit of `cfg0`. -/
def pSize0 : Part :=
  ⟨"application".data, "application/octet-stream".data, some "attachment".data,
   some "d.dat".data, 1334, some (List.replicate 1000 'x')⟩

/-- A file part whose payload is one byte over the 1000-byte limit. -/
def pSize1 : Part :=
  ⟨"application".data, "application/octet-stream".data, some "attachment".data,
   some "d.dat".data, 1336, some (List.replicate 1001 'x')⟩

/-! ## Helper lemmas -/

theorem insert_email_dup (db : Db) (r : EmailRec)
    (h : email_exists db r.emailId = true) : insert_email db r = (none, db) := by
  simp [insert_email, insert_email_core, h, catchInsert]

theorem insert_email_fresh (db : Db) (r : EmailRec)
    (h : email_exists db r.emailId = false) :
    insert_email db r = (some (db.length + 1), db ++ [r]) := by
  simp [insert_email, insert_email_core, h, catchInsert]

theorem buildRecord_emailId (cfg : Config) (folder emailId : List Char)
    (index : Nat) (m : MsgData) (sizeKb : Rat) :
    (buildRecord cfg folder emailId index m sizeKb).emailId = emailId := rfl

theorem email_exists_append_self (db : Db) (r : EmailRec) :
    email_exists (db ++ [r]) r.emailId = true := by
  simp [email_exists]

theorem countRecords_append_self (db : Db) (r : EmailRec) :
    countRecords (db ++ [r]) r.emailId = countRecords db r.emailId + 1 := by
  simp [countRecords]

theorem countRecords_of_not_exists (db : Db) (emailId : List Char)
    (h : email_exists db emailId = false) : countRecords db emailId = 0 := by
  simp only [email_exists, List.any_eq_false, decide_eq_true_eq] at h
  simp only [countRecords, List.length_eq_zero, List.filter_eq_nil_iff]
  intro r hr
  simpa using h r hr

/-! ## Claims -/

/-- C9: `insert_email` is total at its interface: it returns the new
row id on success, and returns `None` both on a duplicate `email_id`
(leaving the stored record set unchanged) and on any other database
failure; the `except` handlers mean no exception escapes. -/
theorem c9_insert_email_total :
    (∀ db r, email_exists db r.emailId = true → insert_email db r = (none, db)) ∧
    (∀ db r, email_exists db r.emailId = false →
      insert_email db r = (some (db.length + 1), db ++ [r])) ∧
    (∀ db e, catchInsert db (Except.error e) = (none, db)) :=
  ⟨insert_email_dup, insert_email_fresh, fun _ _ => rfl⟩

/-- Witness for C9 at a fresh and at a duplicate insert. -/
theorem c9_insert_email_total_witness :
    insert_email [] rec0 = (some 1, [rec0]) ∧
    insert_email [rec0] rec0 = (none, [rec0]) ∧
    catchInsert [rec0] (Except.error SqlErr.other) = (none, [rec0]) :=
  ⟨c9_insert_email_total.2.1 [] rec0 (by decide),
   c9_insert_email_total.1 [rec0] rec0 (by decide),
   c9_insert_email_total.2.2 [rec0] SqlErr.other⟩

/-- C10: calling `search_emails` with a non-null query and a field
outside `all`/`subject`/`from`/`date` executes no SQL statement: the
final `fetchall` returns whatever rows the shared cursor still held
from the last executed statement (not an empty list, not an error). -/
theorem c10_search_invalid_field (db : Db) (cur : Cursor) (q field : List Char)
    (limit : Nat) (h1 : field ≠ "all".data) (h2 : field ≠ "subject".data)
    (h3 : field ≠ "from".data) (h4 : field ≠ "date".data) :
    search_emails db cur (some q) field limit = (cur.pending, ⟨[]⟩) := by
  simp [search_emails, fetchall, h1, h2, h3, h4]

/-- Witness for C10: a stale cursor's rows come back unchanged. -/
theorem c10_search_invalid_field_witness :
    search_emails [] ⟨[rec0]⟩ (some "x".data) "body".data 5 = ([rec0], ⟨[]⟩) :=
  c10_search_invalid_field [] ⟨[rec0]⟩ "x".data "body".data 5
    (by decide) (by decide) (by decide) (by decide)

/-- C7: `attachment_type` is a pure function of (files non-empty,
links non-empty) with values both/file/link/none, and in the `none`
case the (empty, freshly created) message folder is removed and the
record's `folder_path` is the empty string. -/
theorem c7_attachment_type (cfg : Config) (folder emailId : List Char)
    (index : Nat) (m : MsgData) (sizeKb : Rat) :
    ((process_attachments cfg m.parts).files ≠ [] →
      (process_attachments cfg m.parts).links ≠ [] →
      (buildRecord cfg folder emailId index m sizeKb).attachmentType = "both".data) ∧
    ((process_attachments cfg m.parts).files ≠ [] →
      (process_attachments cfg m.parts).links = [] →
      (buildRecord cfg folder emailId index m sizeKb).attachmentType = "file".data) ∧
    ((process_attachments cfg m.parts).files = [] →
      (process_attachments cfg m.parts).links ≠ [] →
      (buildRecord cfg folder emailId index m sizeKb).attachmentType = "link".data) ∧
    ((process_attachments cfg m.parts).files = [] →
      (process_attachments cfg m.parts).links = [] →
      (buildRecord cfg folder emailId index m sizeKb).attachmentType = "none".data ∧
      (buildRecord cfg folder emailId index m sizeKb).folderPath = []) := by
  refine ⟨fun hf hl => ?_, fun hf hl => ?_, fun hf hl => ?_, fun hf hl => ?_⟩ <;>
    simp [buildRecord, attachmentTypeOf, hf, hl]

/-- Witness for C7 across all four attachment-type cases. -/
theorem c7_attachment_type_witness :
    (buildRecord cfg0 "bk".data "1".data 1 msgNone0 0).attachmentType = "none".data ∧
    (buildRecord cfg0 "bk".data "1".data 1 msgNone0 0).folderPath = [] ∧
    (buildRecord cfg0 "bk".data "2".data 2 msgFile0 0).attachmentType = "file".data ∧
    (buildRecord cfg0 "bk".data "3".data 3 msgLink0 0).attachmentType = "link".data ∧
    (buildRecord cfg0 "bk".data "4".data 4 msgBoth0 0).attachmentType = "both".data := by
  have hn := (c7_attachment_type cfg0 "bk".data "1".data 1 msgNone0 0).2.2.2
    (by decide) (by decide)
  have hf := (c7_attachment_type cfg0 "bk".data "2".data 2 msgFile0 0).2.1
    (by decide) (by decide)
  have hl := (c7_attachment_type cfg0 "bk".data "3".data 3 msgLink0 0).2.2.1
    (by decide) (by decide)
  have hb := (c7_attachment_type cfg0 "bk".data "4".data 4 msgBoth0 0).1
    (by decide) (by decide)
  exact ⟨hn.1, hn.2, hf, hl, hb⟩

/-- C2 counterexample: when the commit step hits the unique-key
conflict (the record's external id is already stored), `download_email`
still finishes with terminal outcome `success` — not `exists` as the
claim states (the `exists` outcome is produced only by the exists-gate
at the start of the call). -/
theorem c2_commit_conflict_counterexample :
    email_exists [rec0] rec0.emailId = true ∧
    commitRecord [rec0] rec0 = (Outcome.success, [rec0]) ∧
    Outcome.success ≠ Outcome.exists_ := by
  refine ⟨by decide, ?_, by decide⟩
  rfl

/-- C2 amended: a unique-key conflict at commit is benign — the insert
is a no-op and the message finishes as `success`, not `error`; and
ingesting the same external id twice yields exactly one stored record,
the second call reporting `exists`. -/
theorem c2_idempotent_ingest :
    (∀ db rec, email_exists db rec.emailId = true →
      commitRecord db rec = (Outcome.success, db)) ∧
    (∀ cfg scfg folder db emailId index sizeKb hf hs m,
      email_exists db emailId = false →
      (is_email_safe scfg sizeKb hf hs).1 = true →
      (download_email cfg scfg folder db emailId index sizeKb hf hs (some m)).1 =
        Outcome.success ∧
      countRecords
        (download_email cfg scfg folder db emailId index sizeKb hf hs (some m)).2
        emailId = 1 ∧
      download_email cfg scfg folder
          (download_email cfg scfg folder db emailId index sizeKb hf hs (some m)).2
          emailId index sizeKb hf hs (some m) =
        (Outcome.exists_,
          (download_email cfg scfg folder db emailId index sizeKb hf hs (some m)).2)) := by
  constructor
  · intro db rec h
    simp [commitRecord, insert_email_dup db rec h]
  · intro cfg scfg folder db emailId index sizeKb hf hs m hex hsafe
    have hne : ¬ (is_email_safe scfg sizeKb hf hs).1 = false := by simp [hsafe]
    have hrec := buildRecord_emailId cfg folder emailId index m sizeKb
    have hfresh := insert_email_fresh db
      (buildRecord cfg folder emailId index m sizeKb) (by rw [hrec]; exact hex)
    have hdl : download_email cfg scfg folder db emailId index sizeKb hf hs (some m) =
        (Outcome.success, db ++ [buildRecord cfg folder emailId index m sizeKb]) := by
      simp [download_email, hex, hne, commitRecord, hfresh]
    refine ⟨by rw [hdl], ?_, ?_⟩
    · rw [hdl]
      have := countRecords_append_self db (buildRecord cfg folder emailId index m sizeKb)
      rw [hrec] at this
      rw [this, countRecords_of_not_exists db emailId hex]
    · rw [hdl]
      have hex2 : email_exists
          (db ++ [buildRecord cfg folder emailId index m sizeKb]) emailId = true := by
        have := email_exists_append_self db (buildRecord cfg folder emailId index m sizeKb)
        rwa [hrec] at this
      simp [download_email, hex2]

/-- Witness for C2 (amended): a concrete fresh ingest followed by a
second ingest of the same id. -/
theorem c2_idempotent_ingest_witness :
    (download_email cfg0 scfg0 "bk".data [] "7".data 1 0 "x@y".data "hello".data
      (some msgNone0)).1 = Outcome.success ∧
    countRecords
      (download_email cfg0 scfg0 "bk".data [] "7".data 1 0 "x@y".data "hello".data
        (some msgNone0)).2 "7".data = 1 ∧
    download_email cfg0 scfg0 "bk".data
        (download_email cfg0 scfg0 "bk".data [] "7".data 1 0 "x@y".data "hello".data
          (some msgNone0)).2
        "7".data 1 0 "x@y".data "hello".data (some msgNone0) =
      (Outcome.exists_,
        (download_email cfg0 scfg0 "bk".data [] "7".data 1 0 "x@y".data "hello".data
          (some msgNone0)).2) :=
  c2_idempotent_ingest.2 cfg0 scfg0 "bk".data [] "7".data 1 0 "x@y".data "hello".data
    msgNone0 (by decide) (by decide)

/-- C3 counterexample: the subject `"URGENT: verify account now"`
matches two configured suspicious phrases (`urgent`, `verify account`),
yet the screener appends a single joined reason, so the reasons list
has length 1, not 2 — while `allowed` is still `false`. -/
theorem c3_single_joined_reason_counterexample :
    (check_suspicious_content subjCex []).length = 2 ∧
    (is_email_safe scfg0 0 "a@b.c".data subjCex).2.1.length = 1 ∧
    (is_email_safe scfg0 0 "a@b.c".data subjCex).1 = false := by
  refine ⟨by decide, by decide, by decide⟩

/-- C3 amended: when the subject matches at least one suspicious
phrase (and suspicious-skipping is on), the verdict has
`allowed = false` with a non-empty reasons list, and the reasons
contain exactly one suspicious-pattern reason, carrying the full list
of matched phrases joined into it (not one reason per phrase). -/
theorem c3_suspicious_reasons (cfg : ScreenCfg) (sizeKb : Rat)
    (fromAddr subject : List Char) (hskip : cfg.skipSuspicious = true)
    (hfound : check_suspicious_content subject [] ≠ []) :
    (is_email_safe cfg sizeKb fromAddr subject).1 = false ∧
    (is_email_safe cfg sizeKb fromAddr subject).2.1 ≠ [] ∧
    (is_email_safe cfg sizeKb fromAddr subject).2.1.filter Reason.isSuspicious =
      [Reason.suspiciousPatterns (check_suspicious_content subject [])] := by
  by_cases h1 : cfg.maxEmailSizeKb < sizeKb <;>
    by_cases h2 : is_sender_blacklisted cfg.blacklist fromAddr <;>
      simp [is_email_safe, hskip, hfound, h1, h2, Reason.isSuspicious]

/-- Witness for C3 (amended) at the two-phrase subject. -/
theorem c3_suspicious_reasons_witness :
    (is_email_safe scfg0 0 "a@b.c".data subjCex).1 = false ∧
    (is_email_safe scfg0 0 "a@b.c".data subjCex).2.1 ≠ [] ∧
    (is_email_safe scfg0 0 "a@b.c".data subjCex).2.1.filter Reason.isSuspicious =
      [Reason.suspiciousPatterns (check_suspicious_content subjCex [])] :=
  c3_suspicious_reasons scfg0 0 "a@b.c".data subjCex (by decide) (by decide)

theorem stepPart_processed_of_new (cfg : Config) (st : AttachState) (p : Part)
    (fn : List Char) (hm : p.maintype ≠ "multipart".data)
    (hd : p.disposition ≠ none) (hf : p.filename = some fn) (hfn : fn ≠ [])
    (hk : partKey p fn ∉ st.processed) :
    (stepPart cfg st p).processed = partKey p fn :: st.processed := by
  obtain ⟨mt, ct, disp, fname, rl, pl⟩ := p
  simp only [Part.maintype, Part.disposition, Part.filename] at hm hd hf
  subst hf
  cases pl with
  | none =>
    simp only [stepPart]
    rw [if_neg hm, if_neg hd, if_neg hfn, if_neg hk]
    split_ifs <;> rfl
  | some content =>
    simp only [stepPart]
    rw [if_neg hm, if_neg hd, if_neg hfn, if_neg hk]
    split_ifs <;> rfl

/-- C4 counterexample: a part that is not a multipart container and has
a `Content-Disposition` header but no filename is also excluded from
all three result lists with no side effects (and it is not a duplicate:
the processed-key set is empty), contradicting the claim's "exactly
when". -/
theorem c4_skip_counterexample :
    stepPart cfg0 st0 pNoName = st0 ∧
    pNoName.maintype ≠ "multipart".data ∧ pNoName.disposition ≠ none ∧
    st0.processed = [] := by decide

/-- C4 amended: a part contributes nothing (state wholly unchanged,
duplicate key not even recorded) exactly when it is a multipart
container, lacks a `Content-Disposition` header, or lacks a filename
(absent or empty); and a non-skipped part is a full no-op exactly when
its synthetic key filename+contentType+undecoded-payload-length was
already seen among the earlier parts of the same message. -/
theorem c4_skip_and_duplicate (cfg : Config) (st : AttachState) (p : Part) :
    ((p.maintype = "multipart".data ∨ p.disposition = none ∨ p.filename = none ∨
        p.filename = some []) → stepPart cfg st p = st) ∧
    (∀ fn, p.maintype ≠ "multipart".data → p.disposition ≠ none →
      p.filename = some fn → fn ≠ [] →
      (stepPart cfg st p = st ↔ partKey p fn ∈ st.processed)) := by
  constructor
  · intro h
    obtain ⟨mt, ct, disp, fname, rl, pl⟩ := p
    simp only [Part.maintype, Part.disposition, Part.filename] at h
    rcases h with h | h | h | h <;> subst h <;> simp [stepPart, ite_self]
  · intro fn hm hd hf hfn
    constructor
    · intro heq
      by_contra hk
      have hp := stepPart_processed_of_new cfg st p fn hm hd hf hfn hk
      rw [heq] at hp
      have hlen := congrArg List.length hp
      simp only [List.length_cons] at hlen
      omega
    · intro hk
      obtain ⟨mt, ct, disp, fname, rl, pl⟩ := p
      simp only [Part.maintype, Part.disposition, Part.filename] at hm hd hf
      subst hf
      simp only [stepPart]
      rw [if_neg hm, if_neg hd, if_neg hfn, if_pos hk]

/-- Witness for C4 (amended): a multipart part is skipped; a part with
an already-seen key is a full no-op; a fresh part is not. -/
theorem c4_skip_and_duplicate_witness :
    stepPart cfg0 st0 pMulti0 = st0 ∧
    stepPart cfg0 stDup0 pFile0 = stDup0 ∧
    stepPart cfg0 st0 pFile0 ≠ st0 := by
  refine ⟨(c4_skip_and_duplicate cfg0 st0 pMulti0).1 (Or.inl (by decide)), ?_, ?_⟩
  · exact ((c4_skip_and_duplicate cfg0 stDup0 pFile0).2 "a.pdf".data
      (by decide) (by decide) rfl (by decide)).mpr (by decide)
  · intro h
    have := ((c4_skip_and_duplicate cfg0 st0 pFile0).2 "a.pdf".data
      (by decide) (by decide) rfl (by decide)).mp h
    exact absurd this (by decide)

/-- C5: the max-attachment-size boundary is strict greater-than: a
payload of exactly the configured limit is written (its resolved name
recorded in the folder and in the files list, nothing blocked), while a
payload one byte over is blocked — recorded in `blocked_files` with its
actual size — and not written. -/
theorem c5_size_boundary (cfg : Config) (st : AttachState) (p : Part)
    (fn content : List Char)
    (hm : p.maintype ≠ "multipart".data) (hd : p.disposition ≠ none)
    (hf : p.filename = some fn) (hfn : fn ≠ [])
    (hk : partKey p fn ∉ st.processed)
    (hx : (cfg.blockExecutableFiles && is_executable_file fn) = false)
    (hl : is_attachment_link p = false)
    (hp : p.payload = some content) (hc : content ≠ []) :
    (content.length = cfg.maxAttachmentBytes →
      (stepPart cfg st p).blocked = st.blocked ∧
      (stepPart cfg st p).files =
        st.files ++ [resolveName st.fsys (clean_filename fn)] ∧
      (stepPart cfg st p).fsys =
        resolveName st.fsys (clean_filename fn) :: st.fsys) ∧
    (content.length = cfg.maxAttachmentBytes + 1 →
      (stepPart cfg st p).blocked =
        st.blocked ++ [BlockedEntry.oversize fn content.length] ∧
      (stepPart cfg st p).files = st.files ∧
      (stepPart cfg st p).fsys = st.fsys) := by
  obtain ⟨mt, ct, disp, fname, rl, pl⟩ := p
  simp only [Part.maintype, Part.disposition, Part.filename, Part.payload] at hm hd hf hp hl
  subst hf
  subst hp
  constructor
  · intro hlen
    have hsz : ¬ cfg.maxAttachmentBytes < content.length := by omega
    simp only [stepPart]
    rw [if_neg hm, if_neg hd, if_neg hfn, if_neg hk]
    simp [hx, hl, hc, hsz, saveFileName]
  · intro hlen
    have hsz : cfg.maxAttachmentBytes < content.length := by omega
    simp only [stepPart]
    rw [if_neg hm, if_neg hd, if_neg hfn, if_neg hk]
    simp [hx, hl, hc, hsz]

/-- Witness for C5 at the exact 1000-byte limit and one byte over. -/
theorem c5_size_boundary_witness :
    (stepPart cfg0 st0 pSize0).files =
      st0.files ++ [resolveName st0.fsys (clean_filename "d.dat".data)] ∧
    (stepPart cfg0 st0 pSize0).blocked = st0.blocked ∧
    (stepPart cfg0 st0 pSize1).blocked =
      st0.blocked ++ [BlockedEntry.oversize "d.dat".data (List.replicate 1001 'x').length] ∧
    (stepPart cfg0 st0 pSize1).files = st0.files := by
  have h0 := (c5_size_boundary cfg0 st0 pSize0 "d.dat".data (List.replicate 1000 'x')
    (by decide) (by decide) rfl (by decide) (by decide) (by decide) (by decide)
    rfl (by simp)).1 (by simp [cfg0])
  have h1 := (c5_size_boundary cfg0 st0 pSize1 "d.dat".data (List.replicate 1001 'x')
    (by decide) (by decide) rfl (by decide) (by decide) (by decide) (by decide)
    rfl (by simp)).2 (by simp [cfg0])
  exact ⟨h0.2.1, h0.1, h1.1, h1.2.1⟩

theorem pyStrip_subset (p : Char → Bool) (l : List Char) : pyStrip p l ⊆ l := by
  intro c hc
  simp only [pyStrip, List.mem_reverse] at hc
  exact (List.dropWhile_sublist p).subset
    ((List.mem_reverse).1 ((List.dropWhile_sublist p).subset hc))

theorem sanitizeCore_no_invalid (s : List Char) :
    ∀ c ∈ sanitizeCore s, c ∉ invalidChars := by
  intro c hc
  have hc4 := pyStrip_subset stripSet _ hc
  simp only [List.mem_map] at hc4
  obtain ⟨a, _, ha⟩ := hc4
  by_cases hmem : a ∈ invalidChars
  · rw [if_pos hmem] at ha
    subst ha
    decide
  · rw [if_neg hmem] at ha
    subst ha
    exact hmem

theorem truncate200_subset (t : List Char) : truncate200 t ⊆ t := by
  intro c hc
  unfold truncate200 at hc
  split at hc
  · rcases List.mem_append.1 hc with h | h
    · unfold pySliceTo at h
      split at h
      · exact List.take_subset _ _ (List.take_subset _ _ h)
      · exact List.take_subset _ _ (List.take_subset _ _ h)
    · exact List.drop_subset _ _ h
  · exact hc

theorem truncate200_length (t : List Char)
    (hext : (pySplitext t).2.length ≤ 200) : (truncate200 t).length ≤ 200 := by
  unfold truncate200
  split
  · have hj : (0 : Int) ≤ 200 - ((pySplitext t).2.length : Int) := by
      omega
    simp only [pySliceTo]
    rw [if_pos hj, List.length_append]
    have h1 := List.length_take_le
      ((200 : Int) - ((pySplitext t).2.length : Int)).toNat (pySplitext t).1
    omega
  · omega

/-- C1 counterexample: `clean_filename` applied to a 252-character name
whose extension (everything from the last dot) is 251 characters long
returns a 251-character string — the negative Python slice
`name[:200-len(ext)]` does not shorten it to 200. -/
theorem c1_length_counterexample : 200 < (clean_filename longName).length := by decide

/-- C1 amended: for every input string, `clean_filename` never fails
and returns a non-empty string free of the nine invalid characters;
the 200-character bound holds whenever the extension of the sanitized
name is at most 200 characters (the counterexample shows longer
extensions defeat the truncation). -/
theorem c1_clean_filename_sanitizes (s : List Char) :
    clean_filename s ≠ [] ∧
    (∀ c ∈ clean_filename s, c ∉ invalidChars) ∧
    ((pySplitext (sanitizeCore s)).2.length ≤ 200 →
      (clean_filename s).length ≤ 200) := by
  have h : clean_filename s =
      if truncate200 (sanitizeCore s) = [] then "unnamed_file".data
      else truncate200 (sanitizeCore s) := rfl
  by_cases ht : truncate200 (sanitizeCore s) = []
  · rw [h, if_pos ht]
    refine ⟨by decide, by decide, fun _ => by decide⟩
  · rw [h, if_neg ht]
    exact ⟨ht, fun c hc => sanitizeCore_no_invalid s c (truncate200_subset _ hc),
      fun hext => truncate200_length _ hext⟩

/-- Witness for C1 (amended) on a name with invalid characters,
discharging the short-extension hypothesis of the length bound. -/
theorem c1_clean_filename_sanitizes_witness :
    clean_filename "a<b>:c.txt".data ≠ [] ∧
    (∀ c ∈ clean_filename "a<b>:c.txt".data, c ∉ invalidChars) ∧
    (clean_filename "a<b>:c.txt".data).length ≤ 200 :=
  ⟨(c1_clean_filename_sanitizes "a<b>:c.txt".data).1,
   (c1_clean_filename_sanitizes "a<b>:c.txt".data).2.1,
   (c1_clean_filename_sanitizes "a<b>:c.txt".data).2.2 (by decide)⟩

/-- C8: for a part with a filename, `is_attachment_link` decides in
order: a known file extension yields file; else a filename containing
the HTTP(S) scheme yields link; else a known content-type prefix yields
file; else the payload is inspected and the part is a link exactly when
the decoded payload is at most 10240 bytes and the combined length of
its extracted URLs exceeds half the decoded text length. -/
theorem c8_link_decision (p : Part) (fn : List Char) (hf : p.filename = some fn) :
    (has_file_extension fn = true → is_attachment_link p = false) ∧
    (has_file_extension fn = false → filename_has_url fn = true →
      is_attachment_link p = true) ∧
    (has_file_extension fn = false → filename_has_url fn = false →
      has_known_file_type p.contentType = true → is_attachment_link p = false) ∧
    (has_file_extension fn = false → filename_has_url fn = false →
      has_known_file_type p.contentType = false →
      ∀ content, p.payload = some content →
        (is_attachment_link p = true ↔
          content.length ≤ 10240 ∧
          content.length < 2 * urlsTotalLen (findUrls content))) := by
  refine ⟨fun h1 => ?_, fun h1 h2 => ?_, fun h1 h2 h3 => ?_, fun h1 h2 h3 content hp => ?_⟩
  · simp [is_attachment_link, hf, h1]
  · simp [is_attachment_link, hf, h1, h2]
  · simp [is_attachment_link, hf, h1, h2, h3]
  · simp only [is_attachment_link, hf, h1, h2, h3, hp, Bool.false_eq_true, if_false]
    constructor
    · intro h
      by_cases hc : content = []
      · simp [hc] at h
      · by_cases hsz : 10240 < content.length
        · rw [if_neg hc, if_pos hsz] at h
          exact absurd h (by decide)
        · rw [if_neg hc, if_neg hsz] at h
          split_ifs at h with hurl
          exact ⟨by omega, hurl.2⟩
    · rintro ⟨hle, hgt⟩
      have hc : content ≠ [] := by
        rintro rfl
        simp [findUrls, urlsTotalLen, scanMatches] at hgt
      have hurls : findUrls content ≠ [] := by
        intro h0
        rw [h0] at hgt
        simp [urlsTotalLen] at hgt
      rw [if_neg hc, if_neg (by omega), if_pos ⟨hurls, hgt⟩]

/-- Witness for C8: a stub part whose payload is one URL is a link; a
PDF-named part is a file. -/
theorem c8_link_decision_witness :
    is_attachment_link pLink0 = true ∧ is_attachment_link pFile0 = false := by
  constructor
  · exact ((c8_link_decision pLink0 "shared doc".data rfl).2.2.2 (by decide) (by decide)
      (by decide) "https://dropbox.com/f".data rfl).mpr (by decide)
  · exact (c8_link_decision pFile0 "a.pdf".data rfl).1 (by decide)

theorem digitVal_digitChar (d : Nat) (h : d < 10) : digitVal (digitChar d) = d := by
  interval_cases d <;> rfl

theorem digitsVal_append_single (l : List Char) (c : Char) :
    digitsVal (l ++ [c]) = 10 * digitsVal l + digitVal c := by
  simp [digitsVal, List.foldl_append]

theorem digitsVal_natDigitsAux (fuel : Nat) :
    ∀ n, n ≤ fuel → digitsVal (natDigitsAux fuel n) = n := by
  induction fuel with
  | zero =>
    intro n h
    have h0 : n = 0 := by omega
    subst h0
    rfl
  | succ fuel ih =>
    intro n h
    by_cases h10 : n < 10
    · simp [natDigitsAux, h10, digitsVal, digitVal_digitChar n h10]
    · have hle : n / 10 ≤ fuel := by omega
      rw [natDigitsAux, if_neg h10, digitsVal_append_single, ih _ hle,
        digitVal_digitChar (n % 10) (by omega)]
      omega

theorem natStr_inj (a b : Nat) (h : natStr a = natStr b) : a = b := by
  have ha := digitsVal_natDigitsAux a a le_rfl
  have hb := digitsVal_natDigitsAux b b le_rfl
  simp only [natStr] at h
  rw [h] at ha
  omega

theorem natDigitsAux_ne_nil (fuel n : Nat) : natDigitsAux fuel n ≠ [] := by
  cases fuel with
  | zero => simp [natDigitsAux]
  | succ fuel => by_cases h : n < 10 <;> simp [natDigitsAux, h]

theorem suffixName_inj (base ext : List Char) (i j : Nat)
    (h : suffixName base ext i = suffixName base ext j) : i = j := by
  simp only [suffixName] at h
  have h1 := List.append_cancel_left h
  injection h1 with _ h2
  exact natStr_inj i j (List.append_cancel_right h2)

theorem suffixName_ne_cat (base ext : List Char) (i : Nat) :
    suffixName base ext i ≠ base ++ ext := by
  intro h
  have hl := congrArg List.length h
  simp only [suffixName, List.length_append, List.length_cons] at hl
  have hpos : 0 < (natStr i).length :=
    List.length_pos.mpr (natDigitsAux_ne_nil i i)
  omega

theorem resolveFrom_spec (fsys : List (List Char)) (base ext : List Char) :
    ∀ (m c fuel : Nat), m < fuel →
      (∀ i, i < m → suffixName base ext (c + i) ∈ fsys) →
      suffixName base ext (c + m) ∉ fsys →
      resolveFrom fsys base ext c fuel = suffixName base ext (c + m) := by
  intro m
  induction m with
  | zero =>
    intro c fuel hfuel hocc hfree
    cases fuel with
    | zero => omega
    | succ fuel =>
      simp only [resolveFrom]
      rw [if_neg (by simpa using hfree)]
      simp
  | succ m ih =>
    intro c fuel hfuel hocc hfree
    cases fuel with
    | zero => omega
    | succ fuel =>
      have hc0 : suffixName base ext c ∈ fsys := by
        simpa using hocc 0 (Nat.succ_pos m)
      simp only [resolveFrom]
      rw [if_pos hc0]
      have hocc' : ∀ i, i < m → suffixName base ext (c + 1 + i) ∈ fsys := by
        intro i hi
        have hmem := hocc (i + 1) (by omega)
        have harith : c + (i + 1) = c + 1 + i := by omega
        rwa [harith] at hmem
      have hfree' : suffixName base ext (c + 1 + m) ∉ fsys := by
        have harith : c + (m + 1) = c + 1 + m := by omega
        rwa [harith] at hfree
      rw [ih (c + 1) fuel (by omega) hocc' hfree']
      have harith : c + 1 + m = c + (m + 1) := by omega
      rw [harith]

theorem resolveName_state (clean base ext : List Char)
    (hsplit : pySplitext clean = (base, ext)) (j : Nat) :
    resolveName (((List.range j).map (collName clean base ext)).reverse) clean =
      collName clean base ext j := by
  have hsplit' := hsplit
  simp only [pySplitext] at hsplit'
  injection hsplit' with h1 h2
  have hcat : base ++ ext = clean := by
    rw [← h1, ← h2]
    exact List.take_append_drop _ _
  cases j with
  | zero => simp [resolveName, collName]
  | succ k =>
    have hmem : clean ∈ ((List.range (k + 1)).map (collName clean base ext)).reverse := by
      simp only [List.mem_reverse, List.mem_map]
      exact ⟨0, by simp, by simp [collName]⟩
    have hlen : (((List.range (k + 1)).map (collName clean base ext)).reverse).length
        = k + 1 := by simp
    simp only [resolveName, hsplit]
    rw [if_pos hmem]
    have hocc : ∀ i, i < k → suffixName base ext (1 + i) ∈
        ((List.range (k + 1)).map (collName clean base ext)).reverse := by
      intro i hi
      simp only [List.mem_reverse, List.mem_map]
      exact ⟨1 + i, by simp; omega, by simp [collName]⟩
    have hfree : suffixName base ext (1 + k) ∉
        ((List.range (k + 1)).map (collName clean base ext)).reverse := by
      simp only [List.mem_reverse, List.mem_map]
      rintro ⟨i, hir, hi⟩
      simp only [List.mem_range] at hir
      cases i with
      | zero =>
        simp only [collName, if_pos rfl] at hi
        exact suffixName_ne_cat base ext (1 + k) (hi ▸ hcat.symm ▸ rfl)
      | succ i' =>
        simp only [collName, Nat.succ_ne_zero, if_neg] at hi
        have := suffixName_inj base ext (i' + 1) (1 + k) hi
        omega
    rw [hlen]
    rw [resolveFrom_spec _ base ext k 1 (k + 1 + 1) (by omega) hocc hfree]
    have harith : 1 + k = k + 1 := by omega
    rw [harith]
    simp [collName]

theorem saveNames_state (clean base ext : List Char)
    (hsplit : pySplitext clean = (base, ext)) :
    ∀ (k j : Nat),
      saveNames (((List.range j).map (collName clean base ext)).reverse) clean k =
        (List.range' j k).map (collName clean base ext) := by
  intro k
  induction k with
  | zero => intro j; rfl
  | succ k ih =>
    intro j
    simp only [saveNames, saveFileName]
    rw [resolveName_state clean base ext hsplit j]
    have hstate : collName clean base ext j ::
        ((List.range j).map (collName clean base ext)).reverse =
        ((List.range (j + 1)).map (collName clean base ext)).reverse := by
      rw [List.range_succ, List.map_append, List.reverse_append]
      simp
    rw [hstate, ih (j + 1), List.range'_succ]
    simp

/-- C6: writing `k` colliding files into one fresh message folder, all
sanitizing to the same cleaned name, stores exactly
`name.ext, name_1.ext, …, name_(k-1).ext` in that order: the suffix is
appended before the extension, the first free integer ≥ 1 is chosen,
and no suffix is ever reused. -/
theorem c6_collision_names (clean base ext : List Char) (k : Nat)
    (hsplit : pySplitext clean = (base, ext)) :
    saveNames [] clean k = (List.range k).map (collName clean base ext) := by
  have h := saveNames_state clean base ext hsplit k 0
  simpa [List.range_eq_range'] using h

/-- Witness for C6: three colliding writes of `name.ext`. -/
theorem c6_collision_names_witness :
    saveNames [] "name.ext".data 3 =
      ["name.ext".data, "name_1.ext".data, "name_2.ext".data] := by
  rw [c6_collision_names "name.ext".data "name".data ".ext".data 3 (by decide)]
  decide

end EmailBackup
